import Mathlib

/-!
Verification of the vgm2spc command-stream transcoding pipeline.

Shallow embedding of the Rust sources:
  - `src/bytestream.rs`        → `ByteStream` and its operations
  - `src/vgm/specification.rs` → `Command` constants and `num_argument_bytes`
  - `src/codec/psgcodec.rs`    → `PsgState` with `handle_argument`, `write`,
                                 `flush`, `get_extra_data`
  - `src/codec/nullcodec.rs`   → the `CodecS.nullCodec` branch of the codec sum
  - `src/converter.rs`         → `preprocess` (redundancy-elimination pass),
                                 `encodeLoop` (encoding stage) and
                                 `convert_image` (in-memory part of
                                 `Converter::convert`, up to the final image)

Bytes are `Nat` values below 256; u32/u16/usize arithmetic is `Nat` with an
explicit `% 2^32` where the source casts to `u32`.  Rust panics (out-of-bounds
indexing, `panic!` on an illegal data block) are modelled by `Option`:
an aborted run returns `none`.  Loops of the source are modelled with an
explicit fuel argument; callers pass `available + 1`, enough because every
iteration of every source loop consumes at least one input byte.
-/

set_option maxRecDepth 100000

namespace Vgm2Spc

/-! ## ByteStream (src/bytestream.rs)

A growable byte buffer with a cursor.  `write`/`writeN` append at the end
regardless of the cursor; reads and relative patches use the cursor. -/

structure ByteStream where
  data : List Nat
  pos : Nat
deriving DecidableEq, Repr

namespace ByteStream

/-- `available`: number of bytes still readable. -/
def available (bs : ByteStream) : Nat := bs.data.length - bs.pos

/-- `len`: total number of bytes in the stream. -/
def len (bs : ByteStream) : Nat := bs.data.length

/-- `last`: the final byte, if any. -/
def last? (bs : ByteStream) : Option Nat := bs.data.getLast?

/-- `peek`: next byte without advancing; the source indexes the vector and
panics out of bounds, modelled by `none`. -/
def peek? (bs : ByteStream) : Option Nat := bs.data[bs.pos]?

/-- `peek_u32_at`: little-endian u32 at `pos + off`. -/
def peekU32At? (bs : ByteStream) (off : Nat) : Option Nat := do
  let b0 ← bs.data[bs.pos + off]?
  let b1 ← bs.data[bs.pos + off + 1]?
  let b2 ← bs.data[bs.pos + off + 2]?
  let b3 ← bs.data[bs.pos + off + 3]?
  return b0 ||| (b1 <<< 8) ||| (b2 <<< 16) ||| (b3 <<< 24)

/-- `replace_at`: overwrite the byte at `pos + off`. -/
def replaceAt? (bs : ByteStream) (off v : Nat) : Option ByteStream :=
  if bs.pos + off < bs.data.length then
    some { bs with data := bs.data.set (bs.pos + off) v }
  else none

/-- `replace_u32_at`: overwrite four bytes at `pos + off` with `v` in
little-endian order. -/
def replaceU32At? (bs : ByteStream) (off v : Nat) : Option ByteStream :=
  if bs.pos + off + 3 < bs.data.length then
    some { bs with data :=
      ((((bs.data.set (bs.pos + off) (v &&& 0xFF)).set
        (bs.pos + off + 1) ((v >>> 8) &&& 0xFF)).set
        (bs.pos + off + 2) ((v >>> 16) &&& 0xFF)).set
        (bs.pos + off + 3) ((v >>> 24) &&& 0xFF)) }
  else none

/-- `reset`: cursor back to the start. -/
def reset (bs : ByteStream) : ByteStream := { bs with pos := 0 }

/-- `read`: next byte, advancing the cursor. -/
def read? (bs : ByteStream) : Option (Nat × ByteStream) :=
  match bs.data[bs.pos]? with
  | some b => some (b, { bs with pos := bs.pos + 1 })
  | none => none

/-- `read_n`: the next `n` bytes, advancing the cursor. -/
def readN? (bs : ByteStream) (n : Nat) : Option (List Nat × ByteStream) :=
  if bs.pos + n ≤ bs.data.length then
    some ((bs.data.drop bs.pos).take n, { bs with pos := bs.pos + n })
  else none

/-- `read_available`: all remaining bytes, cursor moves to the end. -/
def readAvailable (bs : ByteStream) : List Nat × ByteStream :=
  (bs.data.drop bs.pos, { bs with pos := bs.data.length })

/-- `skip`: advance the cursor by `n` (no bounds check in the source). -/
def skip (bs : ByteStream) (n : Nat) : ByteStream := { bs with pos := bs.pos + n }

/-- `write`: append one byte at the end. -/
def write (bs : ByteStream) (v : Nat) : ByteStream := { bs with data := bs.data ++ [v] }

/-- `write_n`: append a slice at the end. -/
def writeN (bs : ByteStream) (s : List Nat) : ByteStream := { bs with data := bs.data ++ s }

end ByteStream

/-! ## Command table (src/vgm/specification.rs) -/

namespace Command

def UNDEFINED : Nat := 0
def NOP : Nat := 0x4E
def GG_STEREO : Nat := 0x4F
def PSG_WRITE : Nat := 0x50
def YM2413_WRITE : Nat := 0x51
def YM2612_LO_WRITE : Nat := 0x52
def YM2612_HI_WRITE : Nat := 0x53
def YM2151_WRITE : Nat := 0x54
def WAIT_LONG : Nat := 0x61
def WAIT_NTSC_FRAME : Nat := 0x62
def WAIT_PAL_FRAME : Nat := 0x63
def END_OF_SOUND_DATA : Nat := 0x66
def DATA_BLOCK : Nat := 0x67
def PCM_WRITE : Nat := 0x68
def WAIT_1 : Nat := 0x70
def WAIT_16 : Nat := 0x7F
def YM2612_WRITE_LO_WAIT_0 : Nat := 0x80
def YM2612_WRITE_LO_WAIT_15 : Nat := 0x8F
def WAIT_LONG_THRU_LUT : Nat := 0x90
def SEEK_PCM : Nat := 0xE0

end Command

/-- `num_argument_bytes`: the static opcode → argument-byte-count table.
The source match arm `YM2413_WRITE ... YM2612_HI_WRITE` is the inclusive
range `0x51 ..= 0x53`. -/
def num_argument_bytes (cmd : Nat) : Nat :=
  if cmd = Command.GG_STEREO ∨ cmd = Command.PSG_WRITE then 1
  else if Command.YM2413_WRITE ≤ cmd ∧ cmd ≤ Command.YM2612_HI_WRITE then 2
  else if cmd = Command.WAIT_LONG then 2
  else if cmd = Command.SEEK_PCM then 4
  else 0

/-! ## PSG codec (src/codec/psgcodec.rs)

The codec writes into a caller-owned `ByteStream`; here each operation takes
the output stream and returns the updated pair. -/

def GET_LONG_WAIT_LUT : Nat := 0

structure PsgState where
  pending : List Nat          -- pending_data
  long_wait_table : List Nat  -- u16 durations
  current_command : Nat
  remaning_argument_bytes : Nat
  long_wait_duration : Nat
  flags : Nat
  num_flags : Nat
deriving DecidableEq, Repr

namespace PsgState

/-- `PsgCodec::new`: all fields empty / zero, current command `UNDEFINED`. -/
def init : PsgState :=
  { pending := [], long_wait_table := [], current_command := Command.UNDEFINED,
    remaning_argument_bytes := 0, long_wait_duration := 0, flags := 0, num_flags := 0 }

/-- `PsgCodec::handle_argument`.  For a long-wait command the two argument
bytes are accumulated little-endian into `long_wait_duration`; on the second
byte the duration is looked up in the table (`Iterator::position`, i.e. the
first matching index). -/
def handle_argument (s : PsgState) (arg : Nat) : PsgState :=
  let s :=
    if s.current_command = Command.WAIT_LONG then
      let shifted := arg <<< ((2 - s.remaning_argument_bytes) * 8)
      let d := s.long_wait_duration ||| shifted
      let s := { s with long_wait_duration := d }
      if s.remaning_argument_bytes = 1 then
        match s.long_wait_table.findIdx? (fun x => x = d) with
        | some idx =>
          { s with pending := s.pending ++ [Command.WAIT_LONG_THRU_LUT ||| idx] }
        | none =>
          if s.long_wait_table.length < 16 then
            { s with
              pending := s.pending ++ [Command.WAIT_LONG_THRU_LUT ||| s.long_wait_table.length],
              long_wait_table := s.long_wait_table ++ [d] }
          else
            { s with pending := s.pending ++ [Command.WAIT_LONG, d &&& 0xFF, d >>> 8] }
      else s
    else
      { s with pending := s.pending ++ [arg] }
  let s :=
    if s.remaning_argument_bytes > 0 then
      { s with remaning_argument_bytes := s.remaning_argument_bytes - 1 }
    else s
  if s.remaning_argument_bytes = 0 then
    { s with current_command := Command.UNDEFINED }
  else s

/-- `PsgCodec::flush`: when slots are pending, pad `pending` with `NOP` up to
8 slots, emit the flag byte followed by the padded payload, and reset the
batch state. -/
def flush (s : PsgState) (out : ByteStream) : PsgState × ByteStream :=
  if s.num_flags > 0 then
    let padded := s.pending ++ List.replicate (8 - s.num_flags) Command.NOP
    ({ s with pending := [], flags := 0, num_flags := 0 },
     (out.write s.flags).writeN padded)
  else (s, out)

/-- `PsgCodec::write`. -/
def write (s : PsgState) (out : ByteStream) (c : Nat) : PsgState × ByteStream :=
  if s.remaning_argument_bytes > 0 then
    (s.handle_argument c, out)
  else
    let (s, out) := if s.num_flags = 8 then s.flush out else (s, out)
    let s := { s with current_command := c,
                      remaning_argument_bytes := num_argument_bytes c }
    let s :=
      if c = Command.PSG_WRITE then { s with flags := s.flags ||| (1 <<< s.num_flags) }
      else if c = Command.WAIT_LONG then { s with long_wait_duration := 0 }
      else { s with pending := s.pending ++ [c] }
    ({ s with num_flags := s.num_flags + 1 }, out)

/-- The indexed store loop of `get_extra_data`: for each `(i, wait)` of the
table write the duration little-endian into slots `7 + 2*i` and `7 + 2*i + 1`. -/
def storeLut (i : Nat) (tbl acc : List Nat) : List Nat :=
  match tbl with
  | [] => acc
  | w :: rest =>
    storeLut (i + 1) rest ((acc.set (7 + i * 2) (w &&& 0xFF)).set (7 + i * 2 + 1) (w >>> 8))

/-- The 39-byte serialized long-wait table: a 7-byte data-block sub-header,
then 32 bytes of zero-initialised duration slots filled from the table. -/
def serialize_long_wait_lut (tbl : List Nat) : List Nat :=
  storeLut 0 tbl ([Command.DATA_BLOCK, 0x66, 0x02, 0x20, 0x00, 0x00, 0x00] ++ List.replicate 32 0)

/-- `PsgCodec::get_extra_data`. -/
def get_extra_data (s : PsgState) (what : Nat) : Option (List Nat) :=
  if what = GET_LONG_WAIT_LUT then some (serialize_long_wait_lut s.long_wait_table)
  else none

/-- Feed a list of bytes to the codec in order. -/
def writes (s : PsgState) (out : ByteStream) (cs : List Nat) : PsgState × ByteStream :=
  cs.foldl (fun p c => p.1.write p.2 c) (s, out)

end PsgState

/-! ## The codec sum (src/codec/codec.rs, nullcodec.rs, psgcodec.rs)

`Converter::convert` holds a `Box<dyn Codec>` that is either the null codec
(straight pass-through, no-op flush, no side channel) or the PSG codec. -/

inductive CodecS where
  | nullCodec
  | psgCodec (s : PsgState)
deriving DecidableEq, Repr

namespace CodecS

def write : CodecS → ByteStream → Nat → CodecS × ByteStream
  | .nullCodec, out, c => (.nullCodec, out.write c)
  | .psgCodec s, out, c =>
    let (s, out) := s.write out c
    (.psgCodec s, out)

def flush : CodecS → ByteStream → CodecS × ByteStream
  | .nullCodec, out => (.nullCodec, out)
  | .psgCodec s, out =>
    let (s, out) := s.flush out
    (.psgCodec s, out)

def get_extra_data : CodecS → Nat → Option (List Nat)
  | .nullCodec, _ => none
  | .psgCodec s, what => s.get_extra_data what

/-- Both codecs report the length of the shared output stream. -/
def output_len (_ : CodecS) (out : ByteStream) : Nat := out.len

def writeAll (codec : CodecS) (out : ByteStream) (cs : List Nat) : CodecS × ByteStream :=
  cs.foldl (fun p c => p.1.write p.2 c) (codec, out)

end CodecS

/-! ## Redundancy-elimination pass (`Converter::preprocess`) -/

/-- The inner forward-merge loop of the `0x80 ..= 0x8F` arm: while the next
byte is a `0x7n` short wait whose duration still fits, consume it into
`wait`; peeking past the end of the stream panics (`none`). -/
def mergeForward : Nat → ByteStream → Nat → Option (Nat × ByteStream)
  | 0, _, _ => none
  | fuel + 1, inp, wait => do
    let p ← inp.peek?
    if p &&& 0xF0 = Command.WAIT_1 then
      if wait + (p &&& 0x0F) + 1 < 0x10 then
        match inp.read? with
        | some (b, inp) => mergeForward fuel inp (wait + (b &&& 0x0F) + 1)
        | none => none
      else
        some (wait, inp)
    else
      some (wait, inp)

/-- The main loop of `Converter::preprocess`.  State: the input cursor, the
output stream `out` (`preprocessed_data`), the YM2612 channel-3 mode
`ym`, the absolute loop boundary `loopAbs` (`header.loop_offset + 0x1C`),
whether the null codec was selected, and the running translated loop offset
`lo` (the field `self.loop_offset`).  Returns the input and output streams
and the final `lo` when the end marker is reached; `none` on a panic. -/
def preprocessLoop : Nat → ByteStream → ByteStream → Nat → Nat → Bool → Nat →
    Option (ByteStream × ByteStream × Nat)
  | 0, _, _, _, _, _, _ => none
  | fuel + 1, inp, out, ym, loopAbs, nullSel, lo => do
    let lo := if inp.pos = loopAbs then out.len else lo
    let (c, inp) ← inp.read?
    if c = Command.YM2612_LO_WRITE then
      let (arg1, inp) ← inp.read?
      if arg1 = 0x27 then
        let (arg2, inp) ← inp.read?
        if ¬(arg2 >>> 6 = ym) then
          preprocessLoop fuel inp (((out.write c).write arg1).write arg2)
            (arg2 >>> 6) loopAbs nullSel lo
        else
          preprocessLoop fuel inp out ym loopAbs nullSel lo
      else if arg1 = 0x25 ∨ arg1 = 0x26 then
        let (_, inp) ← inp.read?
        preprocessLoop fuel inp out ym loopAbs nullSel lo
      else
        let (arg2, inp) ← inp.read?
        preprocessLoop fuel inp (((out.write c).write arg1).write arg2) ym loopAbs nullSel lo
    else if c = Command.END_OF_SOUND_DATA then
      return (inp, out.write c, lo)
    else if c = Command.DATA_BLOCK then
      let sub ← inp.peek?
      if sub = 0x66 then
        let size ← inp.peekU32At? 2
        let (blk, inp) ← inp.readN? (size + 6)
        preprocessLoop fuel inp ((out.write c).writeN blk) ym loopAbs nullSel lo
      else
        none
    else if Command.YM2612_WRITE_LO_WAIT_0 ≤ c ∧ c ≤ Command.YM2612_WRITE_LO_WAIT_15 then
      let wait := c &&& 0x0F
      let p ← inp.peek?
      if p &&& 0xF0 = Command.WAIT_1 then
        let (wait, inp) ← mergeForward (inp.available + 1) inp wait
        preprocessLoop fuel inp (out.write (0x80 ||| wait)) ym loopAbs nullSel lo
      else if out.len > 0 then
        let last ← out.last?
        if last &&& 0xF0 = Command.WAIT_1 then
          let wait :=
            if wait + (last &&& 0x0F) + 1 < 0x10 then wait + (last &&& 0x0F) + 1 else wait
          let lastIndex := out.len - 1
          let out := (out.reset).skip lastIndex
          let out ← out.replaceAt? 0 (0x80 ||| wait)
          let out := out.skip 1
          preprocessLoop fuel inp out ym loopAbs nullSel lo
        else
          preprocessLoop fuel inp (out.write (0x80 ||| wait)) ym loopAbs nullSel lo
      else
        preprocessLoop fuel inp (out.write (0x80 ||| wait)) ym loopAbs nullSel lo
    else if c = Command.SEEK_PCM then
      let pcm ← inp.peekU32At? 0
      if pcm ≠ 0 ∧ nullSel then
        let (blk, inp) ← inp.readN? 4
        preprocessLoop fuel inp ((out.write c).writeN blk) ym loopAbs nullSel lo
      else
        preprocessLoop fuel inp out ym loopAbs nullSel lo
    else
      let (blk, inp) ← inp.readN? (num_argument_bytes c)
      preprocessLoop fuel inp ((out.write c).writeN blk) ym loopAbs nullSel lo

/-- `Converter::preprocess`: copy the `startOff` header bytes, run the main
loop, then copy any trailing bytes (GD3 block) verbatim.  Returns the
preprocessed stream and the (possibly updated) translated loop offset. -/
def preprocess (inp : ByteStream) (startOff loopAbs : Nat) (nullSel : Bool) (lo0 : Nat) :
    Option (ByteStream × Nat) := do
  let (hdr, inp) ← inp.readN? startOff
  let (inp, out, lo) ← preprocessLoop (inp.available + 1) inp ⟨hdr, 0⟩ 0 loopAbs nullSel lo0
  let out := if inp.available > 0 then out.writeN (inp.readAvailable).1 else out
  return (out, lo)

/-! ## Encoding stage (the second loop of `Converter::convert`) -/

/-- The encoding loop, lines 81–127 of converter.rs.  `loopRaw` is the value
the source compares the cursor against (`vgm_header.loop_offset as usize`,
the raw header field); `newLoop` is `new_loop_offset`.  At the loop boundary
the codec is flushed and the codec output length is recorded; the end marker
is written through the codec, flushed, and terminates. -/
def encodeLoop : Nat → ByteStream → ByteStream → CodecS → Nat → Nat →
    Option (ByteStream × ByteStream × CodecS × Nat)
  | 0, _, _, _, _, _ => none
  | fuel + 1, inp, out, codec, loopRaw, newLoop => do
    let (codec, out, newLoop) :=
      if inp.pos = loopRaw then
        let (codec, out) := codec.flush out
        (codec, out, codec.output_len out)
      else (codec, out, newLoop)
    let (c, inp) ← inp.read?
    let (codec, out) := codec.write out c
    if c = Command.GG_STEREO ∨ c = Command.PSG_WRITE ∨ c = 0x30 then
      let (a, inp) ← inp.read?
      let (codec, out) := codec.write out a
      encodeLoop fuel inp out codec loopRaw newLoop
    else if Command.YM2413_WRITE ≤ c ∧ c ≤ Command.YM2151_WRITE then
      let (a, inp) ← inp.read?
      let (codec, out) := codec.write out a
      let (b, inp) ← inp.read?
      let (codec, out) := codec.write out b
      encodeLoop fuel inp out codec loopRaw newLoop
    else if c = Command.WAIT_LONG then
      let (a, inp) ← inp.read?
      let (codec, out) := codec.write out a
      let (b, inp) ← inp.read?
      let (codec, out) := codec.write out b
      encodeLoop fuel inp out codec loopRaw newLoop
    else if c = Command.END_OF_SOUND_DATA then
      let (codec, out) := codec.flush out
      return (inp, out, codec, newLoop)
    else if c = Command.DATA_BLOCK then
      let sub ← inp.peek?
      if sub = 0x66 then
        let size ← inp.peekU32At? 2
        let (blk, inp) ← inp.readN? (size + 6)
        let (codec, out) := codec.writeAll out blk
        encodeLoop fuel inp out codec loopRaw newLoop
      else
        none
    else if c = Command.SEEK_PCM then
      let (blk, inp) ← inp.readN? 4
      let (codec, out) := codec.writeAll out blk
      encodeLoop fuel inp out codec loopRaw newLoop
    else
      encodeLoop fuel inp out codec loopRaw newLoop

/-- The encoding stage with enough fuel for its input. -/
def encode_stage (inp out : ByteStream) (codec : CodecS) (loopRaw newLoop : Nat) :
    Option (ByteStream × ByteStream × CodecS × Nat) :=
  encodeLoop (inp.available + 1) inp out codec loopRaw newLoop

/-! ## `Converter::convert`, in-memory part

Everything between reading the input bytes and writing the SPC wrapper:
header-field extraction, the preprocessing pass, the encoding stage, the
offset patches, and the assembly of header ++ dictionary block ++ body ++
trailing block (exactly the bytes written in raw-output mode). -/

/-- Little-endian u32 read at a fixed offset of a byte list; this is how the
packed `FileHeader` fields read by `ptr::read` are laid out in the file. -/
def le32At (l : List Nat) (off : Nat) : Option Nat := do
  let b0 ← l[off]?
  let b1 ← l[off + 1]?
  let b2 ← l[off + 2]?
  let b3 ← l[off + 3]?
  return b0 ||| (b1 <<< 8) ||| (b2 <<< 16) ||| (b3 <<< 24)

def U32_MOD : Nat := 4294967296

/-- `Converter::convert` from the header parse (line 51) to the final image
bytes (the three `write_all` calls of raw mode, lines 209–211).  `psgSel`
is whether `ConverterFlags::PSG_CODEC` was selected.  `none` models a panic
or I/O-free failure path. -/
def convert_image (input : List Nat) (psgSel : Bool) : Option (List Nat) := do
  let version ← le32At input 8
  let gd3_field ← le32At input 0x14
  let loop_field ← le32At input 0x1C
  let vgm_data_offset ← le32At input 0x34
  let data_offset := if 0x150 ≤ version then max vgm_data_offset 0x40 else 0x40
  let input_size := input.length
  -- self.loop_offset = (vgm_header.loop_offset + 0x1C) as usize  (u32 addition)
  let lo0 := (loop_field + 0x1C) % U32_MOD
  -- preprocess compares get_pos() with (loop_offset as usize) + 0x1C
  let (pre, lo) ← preprocess ⟨input, 0⟩ data_offset (loop_field + 0x1C) (!psgSel) lo0
  let (hdr, pre) ← pre.readN? data_offset
  let out ← ByteStream.replaceAt? ⟨hdr, 0⟩ 8 0x52
  let codec := if psgSel then CodecS.psgCodec PsgState.init else CodecS.nullCodec
  let (pre, out, codec, newLoop) ← encode_stage pre out codec loop_field lo
  let extradata := (codec.get_extra_data GET_LONG_WAIT_LUT).getD []
  -- eof_offset = output_stream.len() + extradata_block.len() - 4  (usize)
  if out.len + extradata.length < 4 then none else do
  let out ← out.replaceU32At? 4 ((out.len + extradata.length - 4) % U32_MOD)
  -- copy the trailing (GD3) block verbatim
  let out := if pre.available > 0 then out.writeN (pre.readAvailable).1 else out
  -- gd3_offset -= input_size - (output len + extradata len); the GD3 string
  -- extraction that follows only reads bytes and resets the cursor
  let out ←
    if gd3_field ≠ 0 then do
      if input_size < out.len + extradata.length then none else do
      let shrink := input_size - (out.len + extradata.length)
      if gd3_field < shrink then none else
      out.replaceU32At? 0x14 ((gd3_field - shrink) % U32_MOD)
    else
      some out
  -- loop-offset patch, only when self.loop_offset > 0x1C
  let out ←
    if 0x1C < lo then do
      if newLoop + extradata.length < 0x1C then none else
      out.replaceU32At? 0x1C ((newLoop + extradata.length - 0x1C) % U32_MOD)
    else
      some out
  -- final image: header part, dictionary block, body and trailing block
  if data_offset ≤ out.len then
    some (out.data.take data_offset ++ extradata ++ out.data.drop data_offset)
  else none

/-! ## Supporting definitions for the claims -/

/-- Modelled from the spec: the loop-offset value the final header is
claimed to receive (§3, §4.2, §4.3 of the spec): run the same pipeline but
flush and record the codec output length when the reduced-stream cursor
crosses the *translated* loop boundary (the position recorded by the
redundancy-elimination pass), then add the dictionary-block length and
subtract the fixed anchor constant 0x1C.  This differs from `convert_image`
only in the boundary the encoding stage compares the cursor against. -/
def spec_loop_offset_value (input : List Nat) (psgSel : Bool) : Option Nat := do
  let version ← le32At input 8
  let loop_field ← le32At input 0x1C
  let vgm_data_offset ← le32At input 0x34
  let data_offset := if 0x150 ≤ version then max vgm_data_offset 0x40 else 0x40
  let lo0 := (loop_field + 0x1C) % U32_MOD
  let (pre, lo) ← preprocess ⟨input, 0⟩ data_offset (loop_field + 0x1C) (!psgSel) lo0
  let (hdr, pre) ← pre.readN? data_offset
  let out ← ByteStream.replaceAt? ⟨hdr, 0⟩ 8 0x52
  let codec := if psgSel then CodecS.psgCodec PsgState.init else CodecS.nullCodec
  let (_, _, codec, newLoop) ← encode_stage pre out codec lo lo
  let extradata := (codec.get_extra_data GET_LONG_WAIT_LUT).getD []
  if newLoop + extradata.length < 0x1C then none else
  some (newLoop + extradata.length - 0x1C)

/-- A 77-byte input: a 64-byte header (version 0x100, GD3 offset 0,
loop-offset field 0x30, so the absolute loop boundary in the original
stream is 0x30 + 0x1C = 0x4C), then six PSG writes `0x50 0x12` filling
offsets 0x40–0x4B, then the end marker at 0x4C (exactly the loop
boundary). -/
def c1_input : List Nat :=
  [0x56, 0x67, 0x6D, 0x20,  0, 0, 0, 0,  0x00, 0x01, 0x00, 0x00,  0, 0, 0, 0,
   0, 0, 0, 0,  0, 0, 0, 0,  0, 0, 0, 0,  0x30, 0, 0, 0,
   0, 0, 0, 0,  0, 0, 0, 0,  0, 0, 0, 0,  0, 0, 0, 0,
   0, 0, 0, 0,  0, 0, 0, 0,  0, 0, 0, 0,  0, 0, 0, 0] ++
  [0x50, 0x12, 0x50, 0x12, 0x50, 0x12, 0x50, 0x12, 0x50, 0x12, 0x50, 0x12, 0x66]

/-- The byte sequence of eight complete PSG-write commands (each one opcode
byte plus one argument byte): exactly enough to fill all 8 slots of a
codec batch. -/
def eight_psg_writes : List Nat :=
  [0x50, 0x12, 0x50, 0x12, 0x50, 0x12, 0x50, 0x12,
   0x50, 0x12, 0x50, 0x12, 0x50, 0x12, 0x50, 0x12]

/-- The input stream of the end-to-end scenario of claim C6:
PSG-write 0x12, PSG-write 0x34, end marker. -/
def c6_input : ByteStream := ⟨[0x50, 0x12, 0x50, 0x34, 0x66], 0⟩

/-- A concrete codec state in the middle of a long-wait command: the opcode
0x61 and the low duration byte 0x34 have been consumed, one argument byte
remains, and the table already holds the duration 0x1234 at slot 0. -/
def c4_state : PsgState :=
  { pending := [], long_wait_table := [0x1234], current_command := Command.WAIT_LONG,
    remaning_argument_bytes := 1, long_wait_duration := 0x34, flags := 0, num_flags := 1 }

/-- A concrete codec state with one accumulated slot, for the flush claims. -/
def c5_state : PsgState :=
  { pending := [0x12], long_wait_table := [], current_command := Command.UNDEFINED,
    remaning_argument_bytes := 0, long_wait_duration := 0, flags := 1, num_flags := 1 }

/-! ## Claim C1 -/

/-- Claim C1 is violated by the code.  On `c1_input` the loop-offset field
is nonzero (0x30), the translated loop boundary in the reduced stream is
0x4C, and flushing there leaves the codec output at 73 bytes, so the value
the claim mandates is 73 + 39 − 0x1C = 84.  The code instead compares the
reduced-stream cursor against the *untranslated raw field* 0x30 — a position
it never reaches — so no flush happens at the boundary, `new_loop_offset`
keeps the preprocessing-stage value 0x4C = 76, and the final image carries
76 + 39 − 0x1C = 87 at header offset 0x1C. -/
theorem c1_loop_offset_written_value :
    ((convert_image c1_input true).bind (fun img => le32At img 0x1C)) = some 87 ∧
    spec_loop_offset_value c1_input true = some 84 ∧
    ((convert_image c1_input true).bind (fun img => le32At img 0x1C)) ≠
      spec_loop_offset_value c1_input true := by
  decide

/-! ## Claim C2 -/

/-- Claim C2 is violated by the code in the backward-merge case.  With input
`[0x78, 0x88, 0x66]` the already-emitted short wait 0x78 (duration nibble 8)
is followed by 0x88 (wait nibble 8); 8 + 8 + 1 = 17 ≥ 16, so per the claim
both commands must remain, yet the pass *overwrites* the emitted 0x78 with
0x88, silently dropping nine samples of wait.  The forward case
`[0x88, 0x78, 0x66]` correctly keeps both commands, and a backward merge
that fits (`[0x72, 0x83, 0x66]`, 3 + 2 + 1 = 6 < 16) correctly becomes the
single command 0x86 by in-place edit. -/
theorem c2_short_wait_merge_backward_overflow :
    preprocess ⟨[0x78, 0x88, 0x66], 0⟩ 0 99 true 0 = some (⟨[0x88, 0x66], 1⟩, 0) ∧
    preprocess ⟨[0x88, 0x78, 0x66], 0⟩ 0 99 true 0 = some (⟨[0x88, 0x78, 0x66], 0⟩, 0) ∧
    preprocess ⟨[0x72, 0x83, 0x66], 0⟩ 0 99 true 0 = some (⟨[0x86, 0x66], 1⟩, 0) := by
  decide

/-! ## Claim C3 -/

/-- Claim C3 is violated by the code on the drop path.  When a PCM-seek is
dropped (zero destination, or a non-null codec) the source consumes neither
of the four argument bytes, so they are re-parsed as commands and copied
into the reduced stream: `[0xE0, 0, 0, 0, 0, 0x66]` yields
`[0, 0, 0, 0, 0x66]` rather than the claimed `[0x66]`, and with the
dictionary codec `[0xE0, 1, 0, 0, 0, 0x66]` yields `[1, 0, 0, 0, 0x66]`.
The keep path (nonzero destination and null codec) retains the whole
command as the claim states. -/
theorem c3_seek_pcm_drop_leaves_arguments :
    preprocess ⟨[0xE0, 0, 0, 0, 0, 0x66], 0⟩ 0 99 true 0 =
      some (⟨[0, 0, 0, 0, 0x66], 0⟩, 0) ∧
    preprocess ⟨[0xE0, 1, 0, 0, 0, 0x66], 0⟩ 0 99 false 0 =
      some (⟨[1, 0, 0, 0, 0x66], 0⟩, 0) ∧
    preprocess ⟨[0xE0, 1, 0, 0, 0, 0x66], 0⟩ 0 99 true 0 =
      some (⟨[0xE0, 1, 0, 0, 0, 0x66], 0⟩, 0) := by
  decide

/-! ## Claim C5 -/

/-- Counterexample to claim C5 as stated: after eight complete PSG-write
commands every slot of the batch is filled (`num_flags = 8`), yet nothing
has been emitted — the output is still empty, not the 9 bytes (one flag
byte plus 8 entries) that "filling the 8th slot flushes the batch
automatically" would require.  The batch is only flushed by the *next*
`write` call or by an explicit flush. -/
theorem c5_counterexample :
    (PsgState.init.writes ⟨[], 0⟩ eight_psg_writes).1.num_flags = 8 ∧
    (PsgState.init.writes ⟨[], 0⟩ eight_psg_writes).2.data = [] := by
  decide

/-! ## Claim C6 -/

/-- Counterexample to claim C6 as stated: the encoding stage feeds the end
marker itself through the codec, so the payload is not
`[0x12, 0x34, NOP, NOP, NOP, NOP, NOP, NOP]`. -/
theorem c6_counterexample :
    ¬((encode_stage c6_input ⟨[], 0⟩ (CodecS.psgCodec PsgState.init) 99 0).map
        (fun r => r.2.1.data) =
      some ([0x03, 0x12, 0x34] ++ List.replicate 6 Command.NOP)) := by
  decide

/-- Claim C6, amended: the scenario produces one flag byte with exactly
bits 0 and 1 set (0x03), followed by the payload
`[0x12, 0x34, 0x66, NOP, NOP, NOP, NOP, NOP]` — the end marker occupies the
third slot because the encoding loop routes it through the codec before
flushing, so only five no-op pads follow — and the serialized dictionary
block holds no occupied duration slots (header plus 32 zero bytes). -/
theorem c6_end_to_end_amended :
    (encode_stage c6_input ⟨[], 0⟩ (CodecS.psgCodec PsgState.init) 99 0).map
        (fun r => (r.2.1.data, r.2.2.1.get_extra_data GET_LONG_WAIT_LUT)) =
      some ([0x03, 0x12, 0x34, 0x66] ++ List.replicate 5 Command.NOP,
            some ([Command.DATA_BLOCK, 0x66, 0x02, 0x20, 0, 0, 0] ++ List.replicate 32 0)) := by
  decide

/-- Claim C5, amended: an explicit flush after 1–7 accumulated slots pads
`pending` with the no-op marker to exactly 8 slots and emits one flag byte
followed by the padded payload; a flush of a full batch (8 slots) emits the
flag byte and payload with no padding; when the 8 slots are full, the batch
is flushed automatically — with no padding — *by the next `write` call*
(not at the moment the 8th slot fills); and when each slot contributed one
payload byte the bytes emitted are exactly one flag byte plus 8 entries. -/
theorem c5_flush_batch (s : PsgState) (out : ByteStream) :
    (1 ≤ s.num_flags → s.num_flags ≤ 7 →
      s.flush out =
        ({ s with pending := [], flags := 0, num_flags := 0 },
         ⟨out.data ++ s.flags :: (s.pending ++ List.replicate (8 - s.num_flags) Command.NOP),
          out.pos⟩)) ∧
    (s.num_flags = 8 →
      s.flush out =
        ({ s with pending := [], flags := 0, num_flags := 0 },
         ⟨out.data ++ s.flags :: s.pending, out.pos⟩)) ∧
    (s.num_flags = 8 → s.remaning_argument_bytes = 0 → ∀ c,
      ((s.write out c).2).data = out.data ++ s.flags :: s.pending) ∧
    (s.pending.length = s.num_flags → 1 ≤ s.num_flags → s.num_flags ≤ 8 →
      ((s.flush out).2).data.length = out.data.length + 9) := by
  refine ⟨fun h1 h7 => ?_, fun h8 => ?_, fun h8 hr c => ?_, fun hp h1 h8 => ?_⟩
  · have h0 : 0 < s.num_flags := h1
    simp [PsgState.flush, ByteStream.write, ByteStream.writeN, h0]
  · simp [PsgState.flush, ByteStream.write, ByteStream.writeN, h8]
  · simp [PsgState.write, PsgState.flush, ByteStream.write, ByteStream.writeN, h8, hr]
  · have h0 : 0 < s.num_flags := h1
    simp [PsgState.flush, ByteStream.write, ByteStream.writeN, h0, hp]
    omega

/-- Witness for the amended C5 at a concrete input: flushing a batch with a
single accumulated PSG write emits the flag byte 1 followed by the argument
byte and seven no-op pads. -/
theorem c5_witness :
    1 ≤ c5_state.num_flags ∧ c5_state.num_flags ≤ 7 ∧
    c5_state.flush ⟨[], 0⟩ =
      ({ c5_state with pending := [], flags := 0, num_flags := 0 },
       ⟨[] ++ c5_state.flags ::
          (c5_state.pending ++ List.replicate (8 - c5_state.num_flags) Command.NOP), 0⟩) :=
  ⟨by decide, by decide, (c5_flush_batch c5_state ⟨[], 0⟩).1 (by decide) (by decide)⟩

/-! ## Claim C9 -/

/-- Claim C9: a flush with no accumulated commands appends nothing and
leaves codec state and output untouched, and flush is idempotent — flushing
the result of a flush changes nothing. -/
theorem c9_flush_empty_noop_and_idempotent (s : PsgState) (out : ByteStream) :
    (s.num_flags = 0 → s.flush out = (s, out)) ∧
    PsgState.flush (s.flush out).1 (s.flush out).2 = s.flush out := by
  constructor
  · intro h
    simp [PsgState.flush, h]
  · by_cases h : s.num_flags > 0 <;> simp [PsgState.flush, h]

/-- Witness for C9 at a concrete input: the fresh codec has an empty batch
and flushing it is a no-op. -/
theorem c9_witness :
    PsgState.init.num_flags = 0 ∧
    PsgState.flush PsgState.init ⟨[], 0⟩ = (PsgState.init, ⟨[], 0⟩) :=
  ⟨by decide, (c9_flush_empty_noop_and_idempotent PsgState.init ⟨[], 0⟩).1 (by decide)⟩

/-! ## Claim C4 -/

/-- Claim C4: on the second argument byte of a long-wait command the
accumulated little-endian duration `d = low ||| (high <<< 8)` is looked up
in the wait table:  on a hit at (first) index `i` the single byte
`0x90 ||| i` is buffered and the table is unchanged; on a miss with fewer
than 16 entries the duration is appended and `0x90 ||| (new index)` is
buffered; on a miss with a full table the original 3-byte form
`[0x61, low, high]` is buffered and the table is unchanged.  Nothing is
written to the output, the command ends (argument counter 0, current
command back to `UNDEFINED`), distinctness of table entries is preserved,
and the two argument bytes of `0x61 lo hi` are indeed accumulated
little-endian. -/
theorem c4_long_wait_dictionary (s : PsgState) (out : ByteStream) (arg : Nat)
    (hc : s.current_command = Command.WAIT_LONG)
    (hr : s.remaning_argument_bytes = 1) :
    (s.write out arg).2 = out ∧
    (s.write out arg).1.remaning_argument_bytes = 0 ∧
    (s.write out arg).1.current_command = Command.UNDEFINED ∧
    (∀ i, s.long_wait_table.findIdx?
        (fun x => x = s.long_wait_duration ||| (arg <<< 8)) = some i →
      (s.write out arg).1.pending = s.pending ++ [Command.WAIT_LONG_THRU_LUT ||| i] ∧
      (s.write out arg).1.long_wait_table = s.long_wait_table) ∧
    (s.long_wait_table.findIdx?
        (fun x => x = s.long_wait_duration ||| (arg <<< 8)) = none →
     s.long_wait_table.length < 16 →
      (s.write out arg).1.pending =
        s.pending ++ [Command.WAIT_LONG_THRU_LUT ||| s.long_wait_table.length] ∧
      (s.write out arg).1.long_wait_table =
        s.long_wait_table ++ [s.long_wait_duration ||| (arg <<< 8)]) ∧
    (s.long_wait_table.findIdx?
        (fun x => x = s.long_wait_duration ||| (arg <<< 8)) = none →
     ¬s.long_wait_table.length < 16 →
      (s.write out arg).1.pending = s.pending ++
        [Command.WAIT_LONG, (s.long_wait_duration ||| (arg <<< 8)) &&& 0xFF,
         (s.long_wait_duration ||| (arg <<< 8)) >>> 8] ∧
      (s.write out arg).1.long_wait_table = s.long_wait_table) ∧
    (s.long_wait_table.Nodup → (s.write out arg).1.long_wait_table.Nodup) ∧
    (∀ (t : PsgState) (o : ByteStream) (lo hi : Nat), t.remaning_argument_bytes = 0 →
      (t.writes o [Command.WAIT_LONG, lo, hi]).1.long_wait_duration = lo ||| (hi <<< 8)) := by
  have hw : s.write out arg = (s.handle_argument arg, out) := by
    rw [PsgState.write, if_pos (by omega)]
  rw [hw]
  have hd : s.handle_argument arg =
      let d := s.long_wait_duration ||| (arg <<< 8)
      let s' :=
        match s.long_wait_table.findIdx? (fun x => x = d) with
        | some idx =>
          { s with long_wait_duration := d,
                   pending := s.pending ++ [Command.WAIT_LONG_THRU_LUT ||| idx] }
        | none =>
          if s.long_wait_table.length < 16 then
            { s with long_wait_duration := d,
                     pending := s.pending ++
                       [Command.WAIT_LONG_THRU_LUT ||| s.long_wait_table.length],
                     long_wait_table := s.long_wait_table ++ [d] }
          else
            { s with long_wait_duration := d,
                     pending := s.pending ++ [Command.WAIT_LONG, d &&& 0xFF, d >>> 8] }
      { s' with remaning_argument_bytes := 0, current_command := Command.UNDEFINED } := by
    rw [PsgState.handle_argument, if_pos hc, hr]
    norm_num
    rcases hfind : s.long_wait_table.findIdx?
        (fun x => x = s.long_wait_duration ||| (arg <<< 8)) with _ | i
    · by_cases hlen : s.long_wait_table.length < 16 <;> simp [hfind, hlen]
    · simp [hfind]
  refine ⟨rfl, ?_, ?_, fun i hi => ?_, fun hn hlen => ?_, fun hn hlen => ?_, fun hnd => ?_, ?_⟩
  · rw [hd]
  · rw [hd]
  · rw [hd]; simp [hi]
  · rw [hd]; simp [hn, hlen]
  · rw [hd]; simp [hn, hlen]
  · rw [hd]
    rcases hfind : s.long_wait_table.findIdx?
        (fun x => x = s.long_wait_duration ||| (arg <<< 8)) with _ | i
    · have hmem : (s.long_wait_duration ||| (arg <<< 8)) ∉ s.long_wait_table := by
        intro hmem
        have := List.findIdx?_eq_none_iff.mp hfind _ hmem
        simp at this
      by_cases hlen : s.long_wait_table.length < 16 <;>
        simp [hfind, hlen, List.nodup_append, hnd, hmem]
    · simp [hfind, hnd]
  · intro t o lo hi ht
    have key1 : (t.write o Command.WAIT_LONG).1.current_command = Command.WAIT_LONG ∧
        (t.write o Command.WAIT_LONG).1.remaning_argument_bytes = 2 ∧
        (t.write o Command.WAIT_LONG).1.long_wait_duration = 0 := by
      rw [PsgState.write, if_neg (by omega)]
      by_cases h8 : t.num_flags = 8 <;>
        simp [h8, PsgState.flush, num_argument_bytes,
          Command.WAIT_LONG, Command.PSG_WRITE, Command.GG_STEREO,
          Command.YM2413_WRITE, Command.YM2612_HI_WRITE, Command.SEEK_PCM]
    have key2 : ∀ (u : PsgState) (o' : ByteStream) (b : Nat),
        u.current_command = Command.WAIT_LONG → u.remaning_argument_bytes = 2 →
        u.long_wait_duration = 0 →
        (u.write o' b).1.current_command = Command.WAIT_LONG ∧
        (u.write o' b).1.remaning_argument_bytes = 1 ∧
        (u.write o' b).1.long_wait_duration = b := by
      intro u o' b h1 h2 h3
      rw [PsgState.write, if_pos (by omega)]
      rw [PsgState.handle_argument, if_pos h1, h2, h3]
      norm_num [h1, Nat.shiftLeft_zero, Nat.zero_or]
    have key3 : ∀ (u : PsgState) (o' : ByteStream) (b : Nat),
        u.current_command = Command.WAIT_LONG → u.remaning_argument_bytes = 1 →
        (u.write o' b).1.long_wait_duration = u.long_wait_duration ||| (b <<< 8) := by
      intro u o' b h1 h2
      rw [PsgState.write, if_pos (by omega)]
      rw [PsgState.handle_argument, if_pos h1, h2]
      norm_num
      rcases hfind : u.long_wait_table.findIdx?
          (fun x => x = u.long_wait_duration ||| (b <<< 8)) with _ | i
      · by_cases hlen : u.long_wait_table.length < 16 <;> simp [hfind, hlen]
      · simp [hfind]
    simp only [PsgState.writes, List.foldl_cons, List.foldl_nil]
    obtain ⟨k1, k2, k3⟩ := key1
    obtain ⟨m1, m2, m3⟩ := key2 _ _ lo k1 k2 k3
    rw [key3 _ _ hi m1 m2, m3]

/-- Witness for C4 at a concrete input: in `c4_state` (table `[0x1234]`,
low byte 0x34 consumed) the high byte 0x12 completes the duration 0x1234,
which hits slot 0, so the single byte 0x90 is buffered and the table is
unchanged. -/
theorem c4_witness :
    c4_state.current_command = Command.WAIT_LONG ∧
    c4_state.remaning_argument_bytes = 1 ∧
    (c4_state.write ⟨[], 0⟩ 0x12).2 = ⟨[], 0⟩ ∧
    (c4_state.write ⟨[], 0⟩ 0x12).1.pending =
      c4_state.pending ++ [Command.WAIT_LONG_THRU_LUT ||| 0] ∧
    (c4_state.write ⟨[], 0⟩ 0x12).1.long_wait_table = c4_state.long_wait_table :=
  ⟨by decide, by decide,
   (c4_long_wait_dictionary c4_state ⟨[], 0⟩ 0x12 (by decide) (by decide)).1,
   ((c4_long_wait_dictionary c4_state ⟨[], 0⟩ 0x12 (by decide) (by decide)).2.2.2.1
      0 (by decide)).1,
   ((c4_long_wait_dictionary c4_state ⟨[], 0⟩ 0x12 (by decide) (by decide)).2.2.2.1
      0 (by decide)).2⟩

/-! ## Claim C7 -/

/-- Dropping from a replicated list leaves a shorter replicated list. -/
theorem drop_replicate (a n m : Nat) :
    (List.replicate m a).drop n = List.replicate (m - n) a := by
  induction m generalizing n with
  | zero => simp
  | succ k ih =>
    cases n with
    | zero => simp
    | succ j => simp [List.replicate_succ, ih j]

/-- Writing two adjacent slots and truncating just past them yields the
prefix followed by the two written bytes. -/
theorem take_set_pair (acc : List Nat) (p a b : Nat) (h : p + 2 ≤ acc.length) :
    ((acc.set p a).set (p + 1) b).take (p + 2) = acc.take p ++ [a, b] := by
  have hlen : (acc.take p).length = p := by
    simp [List.length_take]
    omega
  apply List.ext_getElem?
  intro j
  by_cases hj : j < p + 2
  · rw [List.getElem?_take_of_lt hj]
    rcases Nat.lt_trichotomy j p with hlt | heq | hgt
    · rw [List.getElem?_set_ne (by omega), List.getElem?_set_ne (by omega),
        List.getElem?_append_left (by omega),
        List.getElem?_take_of_lt hlt]
    · subst heq
      rw [List.getElem?_set_ne (by omega),
        List.getElem?_set_self (by omega),
        List.getElem?_append_right (by omega), hlen]
      simp
    · have hj1 : j = p + 1 := by omega
      subst hj1
      rw [List.getElem?_set_self (by simp only [List.length_set]; omega),
        List.getElem?_append_right (by omega), hlen]
      simp
  · rw [List.getElem?_eq_none (by simp only [List.length_take, List.length_set]; omega),
      List.getElem?_eq_none
        (by simp only [List.length_append, List.length_take, List.length_cons,
          List.length_nil]; omega)]

/-- Writing two adjacent slots below `q` does not affect the suffix from `q`. -/
theorem drop_set_pair (acc : List Nat) (p a b q : Nat) (h : p + 1 < q) :
    ((acc.set p a).set (p + 1) b).drop q = acc.drop q := by
  rw [List.drop_set, if_pos (by omega), List.drop_set, if_pos (by omega)]

/-- Closed form of the indexed store loop of `get_extra_data`: the stored
table overwrites the byte range starting at slot `7 + 2*i` with the
durations in little-endian order and leaves everything else unchanged. -/
theorem storeLut_closed : ∀ (tbl : List Nat) (i : Nat) (acc : List Nat),
    7 + 2 * i + 2 * tbl.length ≤ acc.length →
    PsgState.storeLut i tbl acc =
      acc.take (7 + 2 * i) ++
        (tbl.map (fun w => [w &&& 0xFF, w >>> 8])).flatten ++
        acc.drop (7 + 2 * i + 2 * tbl.length) := by
  intro tbl
  induction tbl with
  | nil =>
    intro i acc _
    simp [PsgState.storeLut]
  | cons w rest ih =>
    intro i acc h
    simp only [List.length_cons] at h
    rw [PsgState.storeLut]
    rw [ih (i + 1) _ (by simp; omega)]
    rw [show 7 + 2 * (i + 1) = 7 + i * 2 + 2 by omega]
    rw [take_set_pair _ _ _ _ (by omega)]
    rw [drop_set_pair _ _ _ _ _ (by omega)]
    rw [show 7 + i * 2 + 2 + 2 * rest.length = 7 + 2 * i + 2 * (rest.length + 1) by omega]
    rw [show 7 + i * 2 = 7 + 2 * i by omega]
    simp [List.append_assoc]

/-- Claim C7: the long-wait-table side-channel query returns exactly the
39-byte block `[0x67, 0x66, 0x02, 0x20, 0, 0, 0]` ++ duration slots: the
occupied slots hold the table's durations as 16-bit little-endian pairs in
table order and all remaining slot bytes are zero, regardless of how many
of the 16 slots are occupied; any other selector returns nothing. -/
theorem c7_serialized_dictionary_block (s : PsgState)
    (h : s.long_wait_table.length ≤ 16) :
    s.get_extra_data GET_LONG_WAIT_LUT =
      some ([Command.DATA_BLOCK, 0x66, 0x02, 0x20, 0, 0, 0] ++
        (s.long_wait_table.map (fun w => [w &&& 0xFF, w >>> 8])).flatten ++
        List.replicate (32 - 2 * s.long_wait_table.length) 0) ∧
    (PsgState.serialize_long_wait_lut s.long_wait_table).length = 39 ∧
    (∀ what, what ≠ GET_LONG_WAIT_LUT → s.get_extra_data what = none) := by
  have hflat : ∀ tbl : List Nat,
      ((tbl.map (fun w => [w &&& 0xFF, w >>> 8])).flatten).length = 2 * tbl.length := by
    intro tbl
    induction tbl with
    | nil => simp
    | cons w rest ih =>
      simp [ih]
      omega
  have hser : PsgState.serialize_long_wait_lut s.long_wait_table =
      [Command.DATA_BLOCK, 0x66, 0x02, 0x20, 0, 0, 0] ++
        (s.long_wait_table.map (fun w => [w &&& 0xFF, w >>> 8])).flatten ++
        List.replicate (32 - 2 * s.long_wait_table.length) 0 := by
    rw [PsgState.serialize_long_wait_lut]
    rw [storeLut_closed _ 0 _ (by simp; omega)]
    rw [show 7 + 2 * 0 + 2 * s.long_wait_table.length =
        7 + 2 * s.long_wait_table.length by omega]
    rw [← List.drop_drop]
    rw [List.drop_left'
      (show ([Command.DATA_BLOCK, 0x66, 0x02, 0x20, 0x00, 0x00, 0x00] : List Nat).length = 7
        from rfl)]
    rw [drop_replicate]
    rw [show 7 + 2 * 0 = 7 from rfl]
    rw [List.take_left'
      (show ([Command.DATA_BLOCK, 0x66, 0x02, 0x20, 0x00, 0x00, 0x00] : List Nat).length = 7
        from rfl)]
  refine ⟨?_, ?_, fun what hw => ?_⟩
  · rw [PsgState.get_extra_data, if_pos rfl, hser]
  · rw [hser]
    simp [hflat]
    omega
  · rw [PsgState.get_extra_data, if_neg hw]

/-- Witness for C7 at a concrete input: a codec state whose table holds the
two durations 0x1234 and 0x0005 serializes to the header followed by
`34 12 05 00` and 28 zero bytes, and the selector 1 returns nothing. -/
theorem c7_witness :
    (⟨[], [0x1234, 0x0005], 0, 0, 0, 0, 0⟩ : PsgState).long_wait_table.length ≤ 16 ∧
    (⟨[], [0x1234, 0x0005], 0, 0, 0, 0, 0⟩ : PsgState).get_extra_data GET_LONG_WAIT_LUT =
      some ([Command.DATA_BLOCK, 0x66, 0x02, 0x20, 0, 0, 0] ++
        (([0x1234, 0x0005] : List Nat).map (fun w => [w &&& 0xFF, w >>> 8])).flatten ++
        List.replicate (32 - 2 * ([0x1234, 0x0005] : List Nat).length) 0) ∧
    (⟨[], [0x1234, 0x0005], 0, 0, 0, 0, 0⟩ : PsgState).get_extra_data 1 = none :=
  ⟨by decide,
   (c7_serialized_dictionary_block ⟨[], [0x1234, 0x0005], 0, 0, 0, 0, 0⟩ (by decide)).1,
   (c7_serialized_dictionary_block ⟨[], [0x1234, 0x0005], 0, 0, 0, 0, 0⟩ (by decide)).2.2
     1 (by decide)⟩

/-! ## Claim C10 -/

/-- Claim C10: the static argument-length table gives 1 for 0x4F and 0x50,
2 for 0x51–0x53 and for 0x61, 4 for 0xE0, and 0 for every other opcode —
including 0 for the YM2151-write opcode 0x54 — while the encoding loop's
own match arm `0x51 ..= 0x54` consumes two argument bytes for 0x54 (shown
on the stream `[0x54, x, y, end]`, whose bytes all pass straight through
with the null codec and whose cursor ends past both argument bytes). -/
theorem c10_argument_byte_table (c x y : Nat) :
    num_argument_bytes Command.GG_STEREO = 1 ∧
    num_argument_bytes Command.PSG_WRITE = 1 ∧
    (Command.YM2413_WRITE ≤ c → c ≤ Command.YM2612_HI_WRITE → num_argument_bytes c = 2) ∧
    num_argument_bytes Command.WAIT_LONG = 2 ∧
    num_argument_bytes Command.SEEK_PCM = 4 ∧
    (¬(c = 0x4F ∨ c = 0x50 ∨ (0x51 ≤ c ∧ c ≤ 0x53) ∨ c = 0x61 ∨ c = 0xE0) →
      num_argument_bytes c = 0) ∧
    num_argument_bytes Command.YM2151_WRITE = 0 ∧
    encode_stage ⟨[Command.YM2151_WRITE, x, y, Command.END_OF_SOUND_DATA], 0⟩ ⟨[], 0⟩
        CodecS.nullCodec 99 0 =
      some (⟨[Command.YM2151_WRITE, x, y, Command.END_OF_SOUND_DATA], 4⟩,
            ⟨[Command.YM2151_WRITE, x, y, Command.END_OF_SOUND_DATA], 0⟩,
            CodecS.nullCodec, 0) := by
  refine ⟨by decide, by decide, fun hl hr => ?_, by decide, by decide, fun h => ?_,
    by decide, rfl⟩
  · unfold num_argument_bytes Command.GG_STEREO Command.PSG_WRITE Command.YM2413_WRITE
      Command.YM2612_HI_WRITE at *
    rw [if_neg (by omega), if_pos (by omega)]
  · unfold num_argument_bytes Command.GG_STEREO Command.PSG_WRITE Command.YM2413_WRITE
      Command.YM2612_HI_WRITE Command.WAIT_LONG Command.SEEK_PCM at *
    rw [if_neg (by omega), if_neg (by omega), if_neg (by omega), if_neg (by omega)]

/-- Witness for C10 at concrete inputs: opcode 0x52 takes two argument
bytes, and opcode 0x90 (outside every listed range) takes none. -/
theorem c10_witness :
    num_argument_bytes 0x52 = 2 ∧ num_argument_bytes 0x90 = 0 :=
  ⟨(c10_argument_byte_table 0x52 0 0).2.2.1 (by decide) (by decide),
   (c10_argument_byte_table 0x90 0 0).2.2.2.2.2.1 (by decide)⟩

/-! ## Claim C8 -/

/-- Claim C8: a data-block command whose following (subtype) byte is 0x66 is
passed through the redundancy-elimination pass verbatim — the opcode, the
0x66 tag, the type byte, the 4-byte size field and exactly the announced
number of payload bytes all reappear unchanged in the reduced stream — for
*every* size and payload consistent with the little-endian size field; a
data-block command whose following byte is anything other than 0x66 aborts
the whole run with no reduced stream produced (`none`, the panic). -/
theorem c8_data_block_passthrough (tt b0 b1 b2 b3 : Nat) (payload : List Nat)
    (cn : Bool) (lo0 : Nat)
    (hlen : payload.length = b0 ||| (b1 <<< 8) ||| (b2 <<< 16) ||| (b3 <<< 24)) :
    preprocess
        ⟨Command.DATA_BLOCK :: 0x66 :: tt :: b0 :: b1 :: b2 :: b3 ::
          (payload ++ [Command.END_OF_SOUND_DATA]), 0⟩ 0 1 cn lo0 =
      some (⟨Command.DATA_BLOCK :: 0x66 :: tt :: b0 :: b1 :: b2 :: b3 ::
          (payload ++ [Command.END_OF_SOUND_DATA]), 0⟩, lo0) ∧
    (∀ b rest, b ≠ 0x66 →
      preprocess ⟨Command.DATA_BLOCK :: b :: rest, 0⟩ 0 1 cn lo0 = none) := by
  constructor
  · have hget : (([103, 102, tt, b0, b1, b2, b3] ++ (payload ++ [102])) :
        List Nat)[payload.length + 7]? = some 102 := by
      rw [List.getElem?_append_right (by simp only [List.length_cons, List.length_nil]; omega)]
      rw [show payload.length + 7 - ([103, 102, tt, b0, b1, b2, b3] : List Nat).length =
          payload.length by simp only [List.length_cons, List.length_nil]; omega]
      exact List.getElem?_concat_length payload 102
    have hloop : preprocessLoop (payload.length + 8 + 1)
        ⟨Command.DATA_BLOCK :: 0x66 :: tt :: b0 :: b1 :: b2 :: b3 ::
          (payload ++ [Command.END_OF_SOUND_DATA]), 0⟩ ⟨[], 0⟩ 0 1 cn lo0 =
        some (⟨Command.DATA_BLOCK :: 0x66 :: tt :: b0 :: b1 :: b2 :: b3 ::
            (payload ++ [Command.END_OF_SOUND_DATA]), payload.length + 8⟩,
          ⟨Command.DATA_BLOCK :: 0x66 :: tt :: b0 :: b1 :: b2 :: b3 ::
            (payload ++ [Command.END_OF_SOUND_DATA]), 0⟩, lo0) := by
      rw [preprocessLoop]
      simp only [ByteStream.read?, ByteStream.peek?, ByteStream.peekU32At?,
        List.getElem?_cons_zero, List.getElem?_cons_succ, Option.some_bind,
        Option.bind_eq_bind, Option.pure_def, Command.DATA_BLOCK, Command.YM2612_LO_WRITE,
        Command.END_OF_SOUND_DATA, Command.YM2612_WRITE_LO_WAIT_0,
        Command.YM2612_WRITE_LO_WAIT_15, Command.SEEK_PCM, Command.WAIT_LONG, Command.WAIT_1]
      norm_num
      rw [← hlen]
      rw [ByteStream.readN?]
      rw [if_pos (by simp; omega)]
      simp only [Option.some_bind]
      rw [show List.drop 1 (103 :: 102 :: tt :: b0 :: b1 :: b2 :: b3 :: (payload ++ [102])) =
          [102, tt, b0, b1, b2, b3] ++ (payload ++ [102]) from rfl]
      rw [show payload.length + 6 =
          ([102, tt, b0, b1, b2, b3] : List Nat).length + payload.length by simp; omega]
      rw [List.take_append]
      rw [List.take_left payload [102]]
      rw [show payload.length + 8 = payload.length + 7 + 1 from rfl]
      rw [preprocessLoop]
      rw [show 1 + (([102, tt, b0, b1, b2, b3] : List Nat).length + payload.length) =
          payload.length + 7 by simp; omega]
      rw [show (103 :: 102 :: tt :: b0 :: b1 :: b2 :: b3 :: (payload ++ [102]) : List Nat) =
          [103, 102, tt, b0, b1, b2, b3] ++ (payload ++ [102]) from rfl]
      rw [if_neg (show ¬(payload.length + 7 = 1) by omega)]
      simp only [ByteStream.read?, hget, Option.some_bind, Option.bind_eq_bind,
        Option.pure_def, Command.YM2612_LO_WRITE, Command.END_OF_SOUND_DATA]
      norm_num
      simp [ByteStream.write, ByteStream.writeN, List.append_assoc]
    have hL : (Command.DATA_BLOCK :: 0x66 :: tt :: b0 :: b1 :: b2 :: b3 ::
        (payload ++ [Command.END_OF_SOUND_DATA]) : List Nat).length = payload.length + 8 := by
      simp only [List.length_cons, List.length_append, List.length_nil]
      try omega
    rw [preprocess]
    simp only [ByteStream.readN?, ByteStream.available, List.drop_zero, List.take_zero,
      Option.bind_eq_bind, Option.pure_def]
    rw [if_pos (by simp)]
    simp only [Option.some_bind, Nat.sub_zero, Nat.add_zero, Nat.zero_add]
    rw [hL, hloop]
    simp only [Option.some_bind]
    rw [if_neg (by rw [hL]; omega)]
  · intro b rest hb
    rw [preprocess]
    simp only [ByteStream.readN?, ByteStream.available, List.drop_zero, List.take_zero,
      Option.bind_eq_bind, Option.pure_def]
    rw [if_pos (by simp)]
    simp only [Option.some_bind, Nat.sub_zero, Nat.add_zero, Nat.zero_add, List.length_cons]
    rw [preprocessLoop]
    simp [ByteStream.read?, ByteStream.peek?, Command.DATA_BLOCK, Command.YM2612_LO_WRITE,
      Command.END_OF_SOUND_DATA, hb]

/-- Witness for C8 at concrete inputs: an empty payload with a zero size
field passes through verbatim, and the subtype byte 0x65 aborts the run. -/
theorem c8_witness :
    (([] : List Nat).length = 0 ||| ((0 : Nat) <<< 8) ||| ((0 : Nat) <<< 16) |||
      ((0 : Nat) <<< 24)) ∧
    preprocess ⟨[0x67, 0x66, 5, 0, 0, 0, 0, 0x66], 0⟩ 0 1 true 7 =
      some (⟨[0x67, 0x66, 5, 0, 0, 0, 0, 0x66], 0⟩, 7) ∧
    preprocess ⟨[0x67, 0x65], 0⟩ 0 1 true 7 = none :=
  ⟨by decide,
   (c8_data_block_passthrough 5 0 0 0 0 [] true 7 (by decide)).1,
   (c8_data_block_passthrough 5 0 0 0 0 [] true 7 (by decide)).2 0x65 [] (by decide)⟩

end Vgm2Spc
